import Mathlib

/-!
Shallow embedding of the 2D vector module in `src/main.rs`.

Modelling conventions:
* Floating-point values are idealized as real numbers (`ℝ`); `sqrt` is `Real.sqrt`.
* A numeric cast `F::from(t)` (num_traits `NumCast`) is modelled as a function
  `castF : T → Option ℝ`; `none` models a failed cast.
* A Rust computation that can abort is modelled in `RustRes`:
  `ok` a normal value, `err` an `eyre::Result` error carrying its message,
  `panicked` a panic (`.expect(..)` on a failed cast, or an arithmetic
  overflow in a debug build) carrying the panic message.
* Fixed-width integer arithmetic that can overflow is passed in explicitly:
  subtraction as `sub : T → T → Option T` (`none` = overflow, which panics in
  a debug build), absolute value per component type.
-/

/-- Outcome of running a fallible Rust computation: a normal value, an
`eyre::Result` error, or a panic. -/
inductive RustRes (α : Type) where
  | ok : α → RustRes α
  | err : String → RustRes α
  | panicked : String → RustRes α
deriving DecidableEq

/-- The struct `Vec2<T>` of `src/main.rs`: a plain pair of components. -/
structure Vec2 (T : Type) where
  x : T
  y : T
deriving DecidableEq

/-- The struct `UnitVec2<F>` of `src/main.rs`: a pair of components intended
to form a unit vector. -/
structure UnitVec2 (F : Type) where
  x : F
  y : F
deriving DecidableEq

/-- `Vec2::new(x, y)`. -/
def Vec2.new {T : Type} (x y : T) : Vec2 T :=
  ⟨x, y⟩

/-- `Vec2Like::length::<F>`: casts both components to `F` with
`F::from(..).expect("cast failed")` (a failed cast panics), then returns
`sqrt(x*x + y*y)`. -/
noncomputable def Vec2.length {T : Type} (castF : T → Option ℝ) (v : Vec2 T) : RustRes ℝ :=
  match castF v.x with
  | none => .panicked "cast failed"
  | some x =>
    match castF v.y with
    | none => .panicked "cast failed"
    | some y => .ok (Real.sqrt (x * x + y * y))

/-- `Vec2Like::distance::<F>(&self, other)`: computes `other.x() - self.x()`
in `T` (overflow panics in a debug build), casts it with
`F::from(..).expect("cast failed")`, likewise for `y`, then returns
`sqrt(dx*dx + dy*dy)`. -/
noncomputable def Vec2.distance {T : Type} (sub : T → T → Option T) (castF : T → Option ℝ)
    (self other : Vec2 T) : RustRes ℝ :=
  match sub other.x self.x with
  | none => .panicked "attempt to subtract with overflow"
  | some dxT =>
    match castF dxT with
    | none => .panicked "cast failed"
    | some dx =>
      match sub other.y self.y with
      | none => .panicked "attempt to subtract with overflow"
      | some dyT =>
        match castF dyT with
        | none => .panicked "cast failed"
        | some dy => .ok (Real.sqrt (dx * dx + dy * dy))

/-- `Vec2Like::abs` (only for `T: Signed`): `Vec2::new(self.x().abs(), self.y().abs())`,
with the component-wise `Signed::abs` of the concrete `T` passed in as `absOp`. -/
def Vec2.absWith {T : Type} (absOp : T → RustRes T) (v : Vec2 T) : RustRes (Vec2 T) :=
  match absOp v.x with
  | .err m => .err m
  | .panicked m => .panicked m
  | .ok ax =>
    match absOp v.y with
    | .err m => .err m
    | .panicked m => .panicked m
    | .ok ay => .ok (Vec2.new ax ay)

/-- `Vec2::normalize::<F>`: computes `len = self.length::<F>()`, errors on
`len == F::zero()`, casts the components with `F::from(..).expect("cast failed")`
(a failed cast panics), and returns `UnitVec2 { x: x/len, y: y/len }`. -/
noncomputable def Vec2.normalize {T : Type} (castF : T → Option ℝ) (v : Vec2 T) :
    RustRes (UnitVec2 ℝ) :=
  match Vec2.length castF v with
  | .err m => .err m
  | .panicked m => .panicked m
  | .ok len =>
    if len = 0 then .err "Cannot normalize a zero-length vector"
    else
      match castF v.x with
      | none => .panicked "cast failed"
      | some x =>
        match castF v.y with
        | none => .panicked "cast failed"
        | some y => .ok ⟨x / len, y / len⟩

/-- `UnitVec2::new::<T>(x, y)`: `Vec2::new(x, y).normalize::<F>()`. -/
noncomputable def UnitVec2.new {T : Type} (castF : T → Option ℝ) (x y : T) :
    RustRes (UnitVec2 ℝ) :=
  Vec2.normalize castF (Vec2.new x y)

/-- `UnitVec2::from_vec2::<T>(v)`: `v.normalize::<F>()`. -/
noncomputable def UnitVec2.from_vec2 {T : Type} (castF : T → Option ℝ) (v : Vec2 T) :
    RustRes (UnitVec2 ℝ) :=
  Vec2.normalize castF v

/-- `UnitVec2::as_vec2`: `Vec2::new(self.x, self.y)`. -/
def UnitVec2.as_vec2 {F : Type} (u : UnitVec2 F) : Vec2 F :=
  Vec2.new u.x u.y

/-- `Vec2Like::length::<F>` as inherited by `UnitVec2` (same default body). -/
noncomputable def UnitVec2.length (castF : ℝ → Option ℝ) (u : UnitVec2 ℝ) : RustRes ℝ :=
  match castF u.x with
  | none => .panicked "cast failed"
  | some x =>
    match castF u.y with
    | none => .panicked "cast failed"
    | some y => .ok (Real.sqrt (x * x + y * y))

/-- `F::from` for an integer component type in the idealized model: num_traits
casts from a primitive integer to a float always succeed, value-preserving here. -/
noncomputable def intCast (n : Int) : Option ℝ :=
  some (n : ℝ)

/-- `F::from` from the float type `F` to itself: the identity, always `Some`. -/
def realCast (r : ℝ) : Option ℝ :=
  some r

/-- A `Scalar` component type whose cast to the floating type can fail: a wide
integer into a low-precision float under strict representability (integers of
magnitude at least `2^24` are not exactly representable in an f32-like type).
The generic code of `src/main.rs` admits any such `NumCast` implementation. -/
noncomputable def strictCast (n : Int) : Option ℝ :=
  if -(2 ^ 24) < n ∧ n < 2 ^ 24 then some (n : ℝ) else none

/-- Subtraction of the unsigned 8-bit component type `u8` (values embedded in
`Int`): underflow is an overflow panic in a debug build, modelled as `none`. -/
def u8Sub (a b : Int) : Option Int :=
  if a - b < 0 then none else some (a - b)

/-- Exact signed subtraction (an unbounded `Signed` scalar such as `BigInt`,
or any in-range fixed-width subtraction). -/
def intSub (a b : Int) : Option Int :=
  some (a - b)

/-- num_traits `Signed::abs` for a fixed-width signed integer type with value
range `[lo, hi]`: `if self.is_negative() { -*self } else { *self }`, where the
negation panics on overflow in a debug build (e.g. at `i8::MIN`). -/
def fixedSignedAbs (lo hi : Int) (n : Int) : RustRes Int :=
  if n < 0 then
    if -n < lo ∨ hi < -n then .panicked "attempt to negate with overflow"
    else .ok (-n)
  else .ok n

/-- The set of `UnitVec2` values producible through the public API: the struct
literal for `UnitVec2` appears only inside `Vec2::normalize` (and `UnitVec2::new` /
`UnitVec2::from_vec2` both delegate to it), so a reachable value is exactly an
`ok` output of `normalize` for some component type, cast, and input vector. -/
def ReachableUnit (u : UnitVec2 ℝ) : Prop :=
  ∃ (T : Type) (castF : T → Option ℝ) (v : Vec2 T), Vec2.normalize castF v = .ok u

lemma length_ok_inv {T : Type} {castF : T → Option ℝ} {v : Vec2 T} {len : ℝ}
    (h : Vec2.length castF v = .ok len) :
    ∃ x y, castF v.x = some x ∧ castF v.y = some y ∧ len = Real.sqrt (x * x + y * y) := by
  unfold Vec2.length at h
  cases hx : castF v.x with
  | none => rw [hx] at h; exact absurd h (by simp)
  | some x =>
    cases hy : castF v.y with
    | none => rw [hx, hy] at h; exact absurd h (by simp)
    | some y =>
      rw [hx, hy] at h
      exact ⟨x, y, rfl, rfl, by injection h with h; exact h.symm⟩

lemma normalize_ok_inv {T : Type} {castF : T → Option ℝ} {v : Vec2 T} {u : UnitVec2 ℝ}
    (h : Vec2.normalize castF v = .ok u) :
    ∃ len x y, Vec2.length castF v = .ok len ∧ len ≠ 0 ∧
      castF v.x = some x ∧ castF v.y = some y ∧ u = ⟨x / len, y / len⟩ := by
  unfold Vec2.normalize at h
  split at h
  · exact absurd h (by simp)
  · exact absurd h (by simp)
  · rename_i len hl
    split at h
    · exact absurd h (by simp)
    · rename_i hz
      split at h
      · exact absurd h (by simp)
      · rename_i x hx
        split at h
        · exact absurd h (by simp)
        · rename_i y hy
          injection h with h
          exact ⟨len, x, y, hl, hz, hx, hy, h.symm⟩

lemma normalize_ok_unit {T : Type} {castF : T → Option ℝ} {v : Vec2 T} {u : UnitVec2 ℝ}
    (h : Vec2.normalize castF v = .ok u) :
    Real.sqrt (u.x * u.x + u.y * u.y) = 1 := by
  obtain ⟨len, x, y, hlen, hz, hx, hy, hu⟩ := normalize_ok_inv h
  obtain ⟨x', y', hx', hy', hs⟩ := length_ok_inv hlen
  rw [hx] at hx'
  rw [hy] at hy'
  injection hx' with hx'
  injection hy' with hy'
  subst hx' hy' hs hu
  have hsq : (0 : ℝ) ≤ x * x + y * y := add_nonneg (mul_self_nonneg x) (mul_self_nonneg y)
  have hmul : Real.sqrt (x * x + y * y) * Real.sqrt (x * x + y * y) = x * x + y * y :=
    Real.mul_self_sqrt hsq
  have hpos : (0 : ℝ) < x * x + y * y := by
    rcases lt_or_eq_of_le hsq with hlt | heq
    · exact hlt
    · exact absurd (show Real.sqrt (x * x + y * y) = 0 by rw [← heq, Real.sqrt_zero]) hz
  have harg : x / Real.sqrt (x * x + y * y) * (x / Real.sqrt (x * x + y * y)) +
      y / Real.sqrt (x * x + y * y) * (y / Real.sqrt (x * x + y * y)) =
      (x * x + y * y) / (Real.sqrt (x * x + y * y) * Real.sqrt (x * x + y * y)) := by
    ring
  dsimp only
  rw [harg, hmul, div_self (ne_of_gt hpos), Real.sqrt_one]

lemma sqrt_twentyfive : Real.sqrt 25 = 5 := by
  rw [show (25 : ℝ) = 5 ^ 2 by norm_num, Real.sqrt_sq (by norm_num)]

lemma length_intCast_three_four : Vec2.length intCast (Vec2.new 3 4) = RustRes.ok 5 := by
  simp only [Vec2.length, intCast, Vec2.new]
  norm_num [sqrt_twentyfive]

lemma normalize_intCast_three_four :
    Vec2.normalize intCast (Vec2.new 3 4) = RustRes.ok ⟨3 / 5, 4 / 5⟩ := by
  have hl := length_intCast_three_four
  simp only [Vec2.new] at hl
  simp only [Vec2.normalize, Vec2.new, hl, intCast]
  norm_num

/-- C1 counterexample: at a component value whose cast to the floating type is
not representable, `length` (and likewise `normalize` and `distance`) panics
with "cast failed" instead of returning any error result — there is no
`CastError` anywhere in the code, refuting the claim as stated. -/
theorem c1_cast_failure_counterexample :
    Vec2.length strictCast (Vec2.new (2 ^ 24) 0) = RustRes.panicked "cast failed" ∧
    Vec2.normalize strictCast (Vec2.new (2 ^ 24) 0) = RustRes.panicked "cast failed" ∧
    Vec2.distance intSub strictCast (Vec2.new 0 0) (Vec2.new (2 ^ 24) 0) =
      RustRes.panicked "cast failed" := by
  have hc : strictCast (2 ^ 24) = none := by
    norm_num [strictCast]
  have hl : Vec2.length strictCast (Vec2.new (2 ^ 24) 0) = RustRes.panicked "cast failed" := by
    simp only [Vec2.length, Vec2.new, hc]
  refine ⟨hl, ?_, ?_⟩
  · simp only [Vec2.normalize, hl]
  · have hd : intSub ((2 : Int) ^ 24) 0 = some (2 ^ 24) := by
      norm_num [intSub]
    simp only [Vec2.distance, Vec2.new, hd, hc]

/-- C1 (amended): whenever a numeric cast performed inside `length`,
`normalize`, or `distance` is not representable (the cast returns `None`) —
at the x component, at the y component after a successful x cast, or at
either coordinate difference in `distance` — the operation panics with
message "cast failed", an uncontrolled abort via `.expect`, and never
reports the failure as an error result. -/
theorem c1_cast_failure_panics :
    (∀ (T : Type) (castF : T → Option ℝ) (v : Vec2 T), castF v.x = none →
      Vec2.length castF v = RustRes.panicked "cast failed" ∧
      Vec2.normalize castF v = RustRes.panicked "cast failed") ∧
    (∀ (T : Type) (castF : T → Option ℝ) (v : Vec2 T) (x : ℝ),
      castF v.x = some x → castF v.y = none →
      Vec2.length castF v = RustRes.panicked "cast failed" ∧
      Vec2.normalize castF v = RustRes.panicked "cast failed") ∧
    (∀ (T : Type) (sub : T → T → Option T) (castF : T → Option ℝ) (a b : Vec2 T) (d : T),
      sub b.x a.x = some d → castF d = none →
      Vec2.distance sub castF a b = RustRes.panicked "cast failed") ∧
    (∀ (T : Type) (sub : T → T → Option T) (castF : T → Option ℝ) (a b : Vec2 T)
      (d e : T) (dx : ℝ),
      sub b.x a.x = some d → castF d = some dx → sub b.y a.y = some e → castF e = none →
      Vec2.distance sub castF a b = RustRes.panicked "cast failed") := by
  refine ⟨?_, ?_, ?_, ?_⟩
  · intro T castF v hx
    have hl : Vec2.length castF v = RustRes.panicked "cast failed" := by
      simp only [Vec2.length, hx]
    exact ⟨hl, by simp only [Vec2.normalize, hl]⟩
  · intro T castF v x hx hy
    have hl : Vec2.length castF v = RustRes.panicked "cast failed" := by
      simp only [Vec2.length, hx, hy]
    exact ⟨hl, by simp only [Vec2.normalize, hl]⟩
  · intro T sub castF a b d hd hdc
    simp only [Vec2.distance, hd, hdc]
  · intro T sub castF a b d e dx hd hdx he hec
    simp only [Vec2.distance, hd, hdx, he, hec]

/-- C1 witness: a y-component cast failure in `length` at `(0, 2^25)`, and a
`distance` call from the castable vector `(0, 0)` to `(2^24, 0)` whose
coordinate difference fails to cast. -/
theorem c1_cast_failure_panics_witness :
    strictCast (Vec2.new (0 : Int) (2 ^ 25)).y = none ∧
    Vec2.length strictCast (Vec2.new (0 : Int) (2 ^ 25)) = RustRes.panicked "cast failed" ∧
    Vec2.distance intSub strictCast (Vec2.new (0 : Int) 0) (Vec2.new (2 ^ 24) 0) =
      RustRes.panicked "cast failed" := by
  have hx : strictCast (Vec2.new (0 : Int) (2 ^ 25)).x = some 0 := by
    norm_num [strictCast, Vec2.new]
  have hy : strictCast (Vec2.new (0 : Int) (2 ^ 25)).y = none := by
    norm_num [strictCast, Vec2.new]
  have hd : intSub (Vec2.new ((2 : Int) ^ 24) 0).x (Vec2.new (0 : Int) 0).x =
      some (2 ^ 24) := by
    norm_num [intSub, Vec2.new]
  have hdc : strictCast (2 ^ 24) = none := by
    norm_num [strictCast]
  exact ⟨hy,
    (c1_cast_failure_panics.2.1 Int strictCast (Vec2.new 0 (2 ^ 25)) 0 hx hy).1,
    c1_cast_failure_panics.2.2.1 Int intSub strictCast (Vec2.new 0 0) (Vec2.new (2 ^ 24) 0)
      (2 ^ 24) hd hdc⟩

/-- C2: normalizing the zero vector fails with the zero-length error for every
component type whose zero casts to the floating zero, and produces no
`UnitVec2`. -/
theorem c2_zero_vector_normalize_errors {T : Type} (castF : T → Option ℝ) (z : T)
    (h : castF z = some 0) :
    Vec2.normalize castF (Vec2.new z z) =
      RustRes.err "Cannot normalize a zero-length vector" := by
  have hl : Vec2.length castF (Vec2.new z z) = RustRes.ok 0 := by
    simp only [Vec2.length, Vec2.new, h]
    norm_num [Real.sqrt_zero]
  simp [Vec2.normalize, hl]

/-- C2 witness: the integer zero vector. -/
theorem c2_zero_vector_normalize_errors_witness :
    intCast 0 = some 0 ∧
    Vec2.normalize intCast (Vec2.new 0 0) =
      RustRes.err "Cannot normalize a zero-length vector" := by
  have h : intCast 0 = some 0 := by simp [intCast]
  exact ⟨h, c2_zero_vector_normalize_errors intCast 0 h⟩

/-- C3 counterexample: a nonzero vector need not normalize successfully: the
nonzero vector `(0, 2^24)` over a scalar whose cast to the floating type
fails on its y component makes `normalize` panic instead of succeeding. -/
theorem c3_nonzero_normalize_counterexample :
    Vec2.new (0 : Int) (2 ^ 24) ≠ Vec2.new 0 0 ∧
    Vec2.normalize strictCast (Vec2.new (0 : Int) (2 ^ 24)) =
      RustRes.panicked "cast failed" := by
  constructor
  · intro h
    have := congrArg Vec2.y h
    simp only [Vec2.new] at this
    norm_num at this
  · have h0 : strictCast 0 = some 0 := by
      norm_num [strictCast]
    have hc : strictCast (2 ^ 24) = none := by
      norm_num [strictCast]
    have hl : Vec2.length strictCast (Vec2.new (0 : Int) (2 ^ 24)) =
        RustRes.panicked "cast failed" := by
      simp only [Vec2.length, Vec2.new, h0, hc]
    simp only [Vec2.normalize, hl]

/-- C3 (amended): for every vector whose components cast successfully to
floating values that are not both zero, `normalize` succeeds and the length
of the resulting `UnitVec2` is within `1e-6` of `1` (in the idealized
real-valued float model it is exactly `1`); when a component cast fails the
call panics, and when the cast components are both zero it errors. -/
theorem c3_nonzero_normalize_succeeds {T : Type} (castF : T → Option ℝ) (v : Vec2 T)
    (x y : ℝ) (hx : castF v.x = some x) (hy : castF v.y = some y)
    (hnz : ¬(x = 0 ∧ y = 0)) :
    ∃ u : UnitVec2 ℝ, Vec2.normalize castF v = RustRes.ok u ∧
      ∃ L : ℝ, UnitVec2.length realCast u = RustRes.ok L ∧ |L - 1| ≤ 1 / 1000000 := by
  have hlen : Vec2.length castF v = RustRes.ok (Real.sqrt (x * x + y * y)) := by
    simp only [Vec2.length, hx, hy]
  have hpos : 0 < x * x + y * y := by
    rcases not_and_or.mp hnz with h0 | h0
    · nlinarith [mul_self_pos.mpr h0, mul_self_nonneg y]
    · nlinarith [mul_self_pos.mpr h0, mul_self_nonneg x]
  have hne : Real.sqrt (x * x + y * y) ≠ 0 := ne_of_gt (Real.sqrt_pos.mpr hpos)
  have hnorm : Vec2.normalize castF v =
      RustRes.ok ⟨x / Real.sqrt (x * x + y * y), y / Real.sqrt (x * x + y * y)⟩ := by
    simp only [Vec2.normalize, hlen, hx, hy, if_neg hne]
  refine ⟨_, hnorm, 1, ?_, by norm_num⟩
  have h1 := normalize_ok_unit hnorm
  simp only [UnitVec2.length, realCast]
  dsimp only at h1 ⊢
  rw [h1]

/-- C3 witness: the integer vector `(3, 4)`. -/
theorem c3_nonzero_normalize_succeeds_witness :
    intCast (Vec2.new 3 4).x = some 3 ∧
    ∃ u : UnitVec2 ℝ, Vec2.normalize intCast (Vec2.new 3 4) = RustRes.ok u ∧
      ∃ L : ℝ, UnitVec2.length realCast u = RustRes.ok L ∧ |L - 1| ≤ 1 / 1000000 := by
  have hx : intCast (Vec2.new 3 4).x = some 3 := by
    norm_num [intCast, Vec2.new]
  have hy : intCast (Vec2.new 3 4).y = some 4 := by
    norm_num [intCast, Vec2.new]
  exact ⟨hx, c3_nonzero_normalize_succeeds intCast (Vec2.new 3 4) 3 4 hx hy (by norm_num)⟩

/-- C4: `UnitVec2::new` and `UnitVec2::from_vec2` are exactly the
normalization algorithm, and every `UnitVec2` reachable through the public
API (an `ok` output of `normalize` for some component type, cast, and input)
satisfies the unit-length invariant `sqrt(x*x + y*y) = 1` within floating
tolerance. -/
theorem c4_unitvec_only_via_normalize :
    (∀ (T : Type) (castF : T → Option ℝ) (x y : T),
      UnitVec2.new castF x y = Vec2.normalize castF (Vec2.new x y)) ∧
    (∀ (T : Type) (castF : T → Option ℝ) (v : Vec2 T),
      UnitVec2.from_vec2 castF v = Vec2.normalize castF v) ∧
    (∀ u : UnitVec2 ℝ, ReachableUnit u →
      |Real.sqrt (u.x * u.x + u.y * u.y) - 1| ≤ 1 / 1000000) := by
  refine ⟨fun T castF x y => rfl, fun T castF v => rfl, fun u hu => ?_⟩
  obtain ⟨T, castF, v, hv⟩ := hu
  rw [normalize_ok_unit hv]
  norm_num

/-- C4 witness: the unit vector `(3/5, 4/5)` reached by normalizing `(3, 4)`. -/
theorem c4_unitvec_only_via_normalize_witness :
    ReachableUnit ⟨3 / 5, 4 / 5⟩ ∧
    |Real.sqrt ((3 / 5 : ℝ) * (3 / 5) + (4 / 5) * (4 / 5)) - 1| ≤ 1 / 1000000 := by
  have hr : ReachableUnit ⟨3 / 5, 4 / 5⟩ :=
    ⟨Int, intCast, Vec2.new 3 4, normalize_intCast_three_four⟩
  have h2 := c4_unitvec_only_via_normalize.2.2 ⟨3 / 5, 4 / 5⟩ hr
  exact ⟨hr, h2⟩

/-- C5: whenever normalization succeeds, the round trip through `as_vec2` and
`length` yields exactly `1` in the idealized real-valued float model. -/
theorem c5_round_trip_length_one {T : Type} (castF : T → Option ℝ) (v : Vec2 T)
    (u : UnitVec2 ℝ) (h : Vec2.normalize castF v = RustRes.ok u) :
    Vec2.length realCast (UnitVec2.as_vec2 u) = RustRes.ok 1 := by
  have h1 := normalize_ok_unit h
  simp only [Vec2.length, UnitVec2.as_vec2, Vec2.new, realCast]
  rw [h1]

/-- C5 witness: the round trip at the integer vector `(3, 4)`. -/
theorem c5_round_trip_length_one_witness :
    Vec2.normalize intCast (Vec2.new 3 4) = RustRes.ok ⟨3 / 5, 4 / 5⟩ ∧
    Vec2.length realCast (UnitVec2.as_vec2 ⟨3 / 5, 4 / 5⟩) = RustRes.ok 1 := by
  exact ⟨normalize_intCast_three_four,
    c5_round_trip_length_one intCast (Vec2.new 3 4) _ normalize_intCast_three_four⟩

/-- C6: every successful normalization follows the stated algorithm: the
length is computed first and is nonzero, each component is cast from `T` to
the floating type, and the result has components `x/len` and `y/len`. -/
theorem c6_normalize_algorithm {T : Type} (castF : T → Option ℝ) (v : Vec2 T)
    (u : UnitVec2 ℝ) (h : Vec2.normalize castF v = RustRes.ok u) :
    ∃ len x y, Vec2.length castF v = RustRes.ok len ∧ len ≠ 0 ∧
      castF v.x = some x ∧ castF v.y = some y ∧ u = UnitVec2.mk (x / len) (y / len) :=
  normalize_ok_inv h

/-- C6 witness: the algorithm decomposition at the integer vector `(3, 4)`. -/
theorem c6_normalize_algorithm_witness :
    Vec2.normalize intCast (Vec2.new 3 4) = RustRes.ok ⟨3 / 5, 4 / 5⟩ ∧
    ∃ len x y, Vec2.length intCast (Vec2.new 3 4) = RustRes.ok len ∧ len ≠ 0 ∧
      intCast (Vec2.new 3 4).x = some x ∧ intCast (Vec2.new 3 4).y = some y ∧
      UnitVec2.mk ((3 : ℝ) / 5) (4 / 5) = UnitVec2.mk (x / len) (y / len) :=
  ⟨normalize_intCast_three_four,
    c6_normalize_algorithm intCast (Vec2.new 3 4) ⟨3 / 5, 4 / 5⟩ normalize_intCast_three_four⟩

/-- C7 counterexample: for the signed component type `i8`, `abs` at the vector
`(i8::MIN, 0) = (-128, 0)` does not return a vector with non-negative
components — the negation inside `Signed::abs` overflows and panics. -/
theorem c7_abs_counterexample :
    Vec2.absWith (fixedSignedAbs (-128) 127) (Vec2.new (-128) 0) =
      RustRes.panicked "attempt to negate with overflow" := by
  decide

/-- C7 (amended): for a signed fixed-width component type with value range
`[lo, hi]` and any vector both of whose components are at least `-hi` (so the
negation cannot overflow; in particular any component above the type's
minimum), `abs` returns a vector with non-negative components. -/
theorem c7_abs_nonneg {lo hi : Int} (v : Vec2 Int) (hlo : lo ≤ 0)
    (hx : -hi ≤ v.x) (hy : -hi ≤ v.y) :
    ∃ w : Vec2 Int, Vec2.absWith (fixedSignedAbs lo hi) v = RustRes.ok w ∧
      0 ≤ w.x ∧ 0 ≤ w.y := by
  have habs : ∀ n : Int, -hi ≤ n → ∃ m, fixedSignedAbs lo hi n = RustRes.ok m ∧ 0 ≤ m := by
    intro n hn
    unfold fixedSignedAbs
    by_cases h0 : n < 0
    · rw [if_pos h0, if_neg (by push_neg; omega)]
      exact ⟨-n, rfl, by omega⟩
    · rw [if_neg h0]
      exact ⟨n, rfl, by omega⟩
  obtain ⟨ax, hax, hax0⟩ := habs v.x hx
  obtain ⟨ay, hay, hay0⟩ := habs v.y hy
  refine ⟨Vec2.new ax ay, ?_, hax0, hay0⟩
  simp only [Vec2.absWith, hax, hay]

/-- C7 witness: the `i8` vector `(-5, 7)`. -/
theorem c7_abs_nonneg_witness :
    (-128 : Int) ≤ 0 ∧
    ∃ w : Vec2 Int, Vec2.absWith (fixedSignedAbs (-128) 127) (Vec2.new (-5) 7) =
      RustRes.ok w ∧ 0 ≤ w.x ∧ 0 ≤ w.y := by
  refine ⟨by norm_num, c7_abs_nonneg (Vec2.new (-5) 7) (by norm_num)
    (by norm_num [Vec2.new]) (by norm_num [Vec2.new])⟩

/-- C8 counterexample: for the unsigned component type `u8`, distance is not
symmetric: `(0,0).distance(&(1,0))` returns `1` but `(1,0).distance(&(0,0))`
underflows in the subtraction `other.x() - self.x()` and panics. -/
theorem c8_distance_symm_counterexample :
    Vec2.distance u8Sub intCast (Vec2.new 0 0) (Vec2.new 1 0) ≠
      Vec2.distance u8Sub intCast (Vec2.new 1 0) (Vec2.new 0 0) := by
  have h1 : u8Sub 1 0 = some 1 := by norm_num [u8Sub]
  have h0 : u8Sub 0 0 = some 0 := by norm_num [u8Sub]
  have h2 : u8Sub 0 1 = none := by norm_num [u8Sub]
  simp only [Vec2.distance, Vec2.new, h1, h0, h2, intCast]
  simp

/-- C8 (amended): distance is symmetric for every component type whose
subtraction and cast are exact on the inputs — here an unbounded signed
integer scalar — because `(b-a)^2 = (a-b)^2` componentwise; for bounded types
the subtraction `other - self` can overflow on one side and panic, which is
what breaks the claim as stated. -/
theorem c8_distance_symm_exact (a b : Vec2 Int) :
    Vec2.distance intSub intCast a b = Vec2.distance intSub intCast b a := by
  simp only [Vec2.distance, intSub, intCast, RustRes.ok.injEq]
  push_cast
  ring_nf

/-- C9: the zero vector has zero length, for every component type whose zero
casts to the floating zero. -/
theorem c9_zero_length {T : Type} (castF : T → Option ℝ) (z : T)
    (h : castF z = some 0) :
    Vec2.length castF (Vec2.new z z) = RustRes.ok 0 := by
  simp only [Vec2.length, Vec2.new, h]
  norm_num [Real.sqrt_zero]

/-- C9 witness: the integer zero vector. -/
theorem c9_zero_length_witness :
    intCast 0 = some 0 ∧ Vec2.length intCast (Vec2.new 0 0) = RustRes.ok 0 := by
  have h : intCast 0 = some 0 := by simp [intCast]
  exact ⟨h, c9_zero_length intCast 0 h⟩

/-- C10: `as_vec2` returns a `Vec2` whose components are identical to the
components of the `UnitVec2` it downgrades, for every floating type. -/
theorem c10_as_vec2_preserves_components {F : Type} (u : UnitVec2 F) :
    (UnitVec2.as_vec2 u).x = u.x ∧ (UnitVec2.as_vec2 u).y = u.y :=
  ⟨rfl, rfl⟩
